import Mathlib

/-!
Shallow embedding of the feed ingestion and normalization pipeline of
`src/app.py` (a Streamlit RSS aggregator).

Modelling conventions:
* A Python `datetime` instant is an integer number of seconds on the
  proleptic Gregorian timeline (`Instant := Int`); `datetime` comparison and
  subtraction (`total_seconds`) become integer comparison and subtraction.
* `feedparser.parse(url)` and the surrounding `try` block are modelled by a
  parameter `fetch : String → Except String Feed`: a per-source fetch either
  yields the parsed feed or raises with an error message.
* `BeautifulSoup(html).find('img')` is modelled by a parameter
  `soup : String → Option (List ImgTag)` giving the sequence of `<img>`
  elements of the document in document order (`none` models the parser
  raising, which line 150 of the source swallows); `find` is `List.head?`.
* Python truthiness of an optional string (`None` and `""` are falsy) is
  `pyTruthyStr`.
* `datetime.utcnow()` captured at line 79 is the parameter `fixed_now`;
  `str(datetime.now())` at line 92 is the parameter `now_str`.
* The Gemini backend (`genai`) is a parameter
  `backend : String → String → Except String String` (model name and prompt
  to response text or exception text); the calls the summarizer makes are
  returned as an explicit `GeminiEvent` trace.
-/

/-- Python `datetime` instants, as seconds on the proleptic Gregorian
timeline. Used only for sorting and filtering, as in the source. -/
abbrev Instant := Int

/-- The first six fields of a `feedparser` `struct_time`
(`tm_year, tm_mon, tm_mday, tm_hour, tm_min, tm_sec`); the source uses only
`published_parsed[:6]` (line 97). -/
structure ParsedTime where
  year : Int
  month : Int
  day : Int
  hour : Int
  minute : Int
  second : Int
deriving DecidableEq

/-- Days since 1970-01-01 of a proleptic Gregorian civil date
(Hinnant's `days_from_civil`). -/
def daysFromCivil (y m d : Int) : Int :=
  let yy : Int := if m ≤ 2 then y - 1 else y
  let era : Int := (if 0 ≤ yy then yy else yy - 399) / 400
  let yoe : Int := yy - era * 400
  let mp : Int := (m + 9) % 12
  let doy : Int := (153 * mp + 2) / 5 + d - 1
  let doe : Int := yoe * 365 + yoe / 4 - yoe / 100 + doy
  era * 146097 + doe - 719468

/-- The instant `datetime(*parsed[:6])` (line 97 of the source) denotes. -/
def datetimeOfParsed (t : ParsedTime) : Instant :=
  86400 * daysFromCivil t.year t.month t.day
    + 3600 * t.hour + 60 * t.minute + t.second

/-- One element of `entry.media_content`: a dict with optional
`medium`, `type` and `url` keys. -/
structure MediaContent where
  medium : Option String := none
  type : Option String := none
  url : Option String := none
deriving DecidableEq

/-- One element of `entry.media_thumbnail`: a dict with an optional `url`. -/
structure MediaThumbnail where
  url : Option String := none
deriving DecidableEq

/-- One element of `entry.enclosures`: a dict with optional `type`/`href`. -/
structure Enclosure where
  type : Option String := none
  href : Option String := none
deriving DecidableEq

/-- One element of `entry.links`: a dict with optional `type`/`href`. -/
structure FeedLink where
  type : Option String := none
  href : Option String := none
deriving DecidableEq

/-- One element of `entry.content`: a content variant with a text `value`. -/
structure ContentBlock where
  value : String
deriving DecidableEq

/-- One `<img>` element as seen by BeautifulSoup: its optional `src`
attribute. -/
structure ImgTag where
  src : Option String := none
deriving DecidableEq

/-- One raw `feedparser` entry. A `none` field models an absent key
(`'k' in entry` false / `entry.get('k')` returning `None`). -/
structure RawEntry where
  title : Option String := none
  link : Option String := none
  summary : Option String := none
  content : Option (List ContentBlock) := none
  published : Option String := none
  updated : Option String := none
  published_parsed : Option ParsedTime := none
  updated_parsed : Option ParsedTime := none
  media_content : Option (List MediaContent) := none
  media_thumbnail : Option (List MediaThumbnail) := none
  enclosures : Option (List Enclosure) := none
  links : Option (List FeedLink) := none
deriving DecidableEq

/-- A parsed feed: `feed.feed.get('title', url)` and `feed.entries`. -/
structure Feed where
  title : Option String := none
  entries : List RawEntry := []
deriving DecidableEq

/-- The dict appended to `all_news` at lines 153-162 of the source. -/
structure NewsItem where
  title : String
  link : String
  source : String
  published : Instant
  raw_date : String
  has_time : Bool
  summary_rss : String
  image : Option String
deriving DecidableEq

/-- Python truthiness of an optional string: `None` and `""` are falsy. -/
def pyTruthyStr : Option String → Bool
  | none => false
  | some s => s ≠ ""

/-- Line 112: `media.get('medium') == 'image' or
media.get('type','').startswith('image/')`. -/
def matchesImageMedia (m : MediaContent) : Bool :=
  m.medium == some "image" || (m.type.getD "").startsWith "image/"

/-- Lines 108-114, strategy 1: scan `entry.media_content` for the first
descriptor matching `matchesImageMedia` and take its `url` (which may be
absent). -/
def imageStep1 (e : RawEntry) : Option String :=
  match e.media_content with
  | some ms => (ms.find? matchesImageMedia).bind MediaContent.url
  | none => none

/-- Lines 117-118, strategy 2: if `image_url` is still falsy and
`entry.media_thumbnail` is present and non-empty, assign the first
thumbnail's `url`. -/
def imageStep2 (e : RawEntry) (prev : Option String) : Option String :=
  if pyTruthyStr prev then prev
  else
    match e.media_thumbnail with
    | some (t :: _) => t.url
    | _ => prev

/-- Line 123: `enclosure.get('type','').startswith('image/')`. -/
def enclosureIsImage (en : Enclosure) : Bool :=
  (en.type.getD "").startsWith "image/"

/-- Lines 121-125, strategy 3: if `image_url` is still falsy, scan
`entry.enclosures` for the first image-typed enclosure and assign its
`href`. -/
def imageStep3 (e : RawEntry) (prev : Option String) : Option String :=
  if pyTruthyStr prev then prev
  else
    match e.enclosures with
    | some es =>
      match es.find? enclosureIsImage with
      | some en => en.href
      | none => prev
    | none => prev

/-- Line 130: `link.get('type','').startswith('image/')`. -/
def linkIsImage (l : FeedLink) : Bool :=
  (l.type.getD "").startsWith "image/"

/-- Lines 128-132, strategy 4: if `image_url` is still falsy, scan
`entry.links` for the first image-typed link and assign its `href`. -/
def imageStep4 (e : RawEntry) (prev : Option String) : Option String :=
  if pyTruthyStr prev then prev
  else
    match e.links with
    | some ls =>
      match ls.find? linkIsImage with
      | some l => l.href
      | none => prev
    | none => prev

/-- Lines 137-142: `content_to_parse`, the entry's summary concatenated with
all content-variant values, in order. -/
def contentToParse (e : RawEntry) : String :=
  (match e.summary with
   | some s => s
   | none => "") ++
  (match e.content with
   | some cs => String.join (cs.map ContentBlock.value)
   | none => "")

/-- Lines 136-151, strategy 5: if `image_url` is still falsy and
`content_to_parse` is non-empty, parse it, take the first `<img>` and, when
its `src` is truthy, assign that `src`. A parser failure (`soup` returning
`none`) is swallowed. -/
def imageStep5 (soup : String → Option (List ImgTag)) (e : RawEntry)
    (prev : Option String) : Option String :=
  if pyTruthyStr prev then prev
  else
    let c := contentToParse e
    if c = "" then prev
    else
      match soup c with
      | some tags =>
        match tags.head? with
        | some t => if pyTruthyStr t.src then t.src else prev
        | none => prev
      | none => prev

/-- Lines 106-151: the image resolution chain, run over one entry; the
mutable `image_url` is threaded through the five strategy steps. -/
def resolve_image (soup : String → Option (List ImgTag)) (e : RawEntry) :
    Option String :=
  imageStep5 soup e (imageStep4 e (imageStep3 e (imageStep2 e (imageStep1 e))))

/-- Spec §4.1 strategy 1 viewed as a pure extractor: the `url` of the first
media-content descriptor accepted by the image predicate, when any. -/
def strat1 (e : RawEntry) : Option String :=
  (e.media_content.bind (fun ms => ms.find? matchesImageMedia)).bind
    MediaContent.url

/-- Spec §4.1 strategy 2 viewed as a pure extractor: the `url` of the first
media-thumbnail descriptor, when any (no type check). -/
def strat2 (e : RawEntry) : Option String :=
  (e.media_thumbnail.bind List.head?).bind MediaThumbnail.url

/-- Spec §4.1 strategy 3 viewed as a pure extractor: the `href` of the first
image-typed enclosure, when any. -/
def strat3 (e : RawEntry) : Option String :=
  (e.enclosures.bind (fun es => es.find? enclosureIsImage)).bind
    Enclosure.href

/-- Spec §4.1 strategy 4 viewed as a pure extractor: the `href` of the first
image-typed generic link, when any. -/
def strat4 (e : RawEntry) : Option String :=
  (e.links.bind (fun ls => ls.find? linkIsImage)).bind FeedLink.href

/-- Spec §4.1 strategy 5 viewed as a pure extractor: the truthy `src` of the
first `<img>` of the concatenated summary-plus-content HTML, when the
concatenation is non-empty and such an `<img>` exists. -/
def strat5 (soup : String → Option (List ImgTag)) (e : RawEntry) :
    Option String :=
  if contentToParse e = "" then none
  else
    ((soup (contentToParse e)).bind List.head?).bind
      (fun t => if pyTruthyStr t.src then t.src else none)

/-- Line 92: `entry.get('published') or entry.get('updated') or
str(datetime.now())` (Python `or`, so empty strings fall through). -/
def rawPublished (e : RawEntry) (now_str : String) : String :=
  if pyTruthyStr e.published then e.published.getD ""
  else if pyTruthyStr e.updated then e.updated.getD ""
  else now_str

/-- Line 93: `entry.get('published_parsed') or entry.get('updated_parsed')`
(a present `struct_time` is always truthy). -/
def publishedParsedOrUpdated (e : RawEntry) : Option ParsedTime :=
  if e.published_parsed.isSome then e.published_parsed else e.updated_parsed

/-- Lines 89-162, one iteration of the entry loop: build the `NewsItem`
dict appended to `all_news`. -/
def normalize_entry (soup : String → Option (List ImgTag))
    (fixed_now : Instant) (now_str : String) (feed_title : String)
    (e : RawEntry) : NewsItem :=
  let dtht : Instant × Bool :=
    match publishedParsedOrUpdated e with
    | some p => (datetimeOfParsed p, true)
    | none => (fixed_now, false)
  { title := e.title.getD "Sem Título"
    link := e.link.getD ""
    source := feed_title
    published := dtht.1
    raw_date := rawPublished e now_str
    has_time := dtht.2
    summary_rss := e.summary.getD ""
    image := resolve_image soup e }

/-- Line 82, `not url.strip()`: the URL consists of whitespace only. -/
def isBlank (s : String) : Bool :=
  s.data.all Char.isWhitespace

/-- Lines 81-164, the source loop of `fetch_feeds`: for each URL, skip it
when blank, otherwise fetch; on success append the normalized entries (feed
title falling back to the URL), on failure report
`"Erro ao processar feed <url>: <e>"` and continue. Returns the collected
`all_news` (in source-encounter order, before sorting) and the reported
error messages. -/
def fetch_feeds_run (soup : String → Option (List ImgTag))
    (fetch : String → Except String Feed) (fixed_now : Instant)
    (now_str : String) : List String → List NewsItem × List String
  | [] => ([], [])
  | url :: rest =>
    let acc := fetch_feeds_run soup fetch fixed_now now_str rest
    if isBlank url then acc
    else
      match fetch url with
      | Except.ok feed =>
        (feed.entries.map
            (normalize_entry soup fixed_now now_str (feed.title.getD url))
          ++ acc.1, acc.2)
      | Except.error e =>
        (acc.1, ("Erro ao processar feed " ++ url ++ ": " ++ e) :: acc.2)

/-- Line 167 comparison: sorting key `published`, `reverse=True`. -/
def newsLe (a b : NewsItem) : Bool :=
  decide (b.published ≤ a.published)

/-- Stable insertion for the descending-by-`published` order: the inserted
item goes before the first list item whose key is not strictly greater, so
an equal key keeps the earlier-encountered item first. -/
def insertNews (x : NewsItem) : List NewsItem → List NewsItem
  | [] => [x]
  | y :: ys =>
    if x.published < y.published then y :: insertNews x ys
    else x :: y :: ys

/-- Line 167, `all_news.sort(key=lambda x: x['published'], reverse=True)`:
Python's stable descending sort, realized as stable insertion sort (proved
below to agree with `List.mergeSort newsLe`). -/
def sortNewsDesc : List NewsItem → List NewsItem
  | [] => []
  | x :: xs => insertNews x (sortNewsDesc xs)

/-- Lines 74-168, `fetch_feeds`: collect news from every URL and stable-sort
by `published`, most recent first. -/
def fetch_feeds (soup : String → Option (List ImgTag))
    (fetch : String → Except String Feed) (fixed_now : Instant)
    (now_str : String) (urls : List String) : List NewsItem :=
  sortNewsDesc (fetch_feeds_run soup fetch fixed_now now_str urls).1

/-- The error messages `st.error` reports during one `fetch_feeds` call. -/
def fetch_feeds_errors (soup : String → Option (List ImgTag))
    (fetch : String → Except String Feed) (fixed_now : Instant)
    (now_str : String) (urls : List String) : List String :=
  (fetch_feeds_run soup fetch fixed_now now_str urls).2

/-- Lines 506-509, the recency filter comprehension, with the literal window
`7200` generalized to a `windowSeconds` parameter:
`0 <= (now_utc - item.published).total_seconds() <= windowSeconds`. -/
def recency_filter (now_utc : Instant) (windowSeconds : Int)
    (items : List NewsItem) : List NewsItem :=
  items.filter fun item =>
    decide (0 ≤ now_utc - item.published)
      && decide (now_utc - item.published ≤ windowSeconds)

/-- Lines 505-509 exactly as in the source: the recency filter applied with
the hard-coded two-hour window. -/
def news_items_recent (now_utc : Instant) (items : List NewsItem) :
    List NewsItem :=
  recency_filter now_utc 7200 items

/-- An interaction of `summarize_with_gemini` with the `genai` library:
`genai.configure(api_key=...)` (line 198) or constructing and calling one
`GenerativeModel` (lines 222-223). -/
inductive GeminiEvent
  | configure (api_key : String)
  | generate (model : String)
deriving DecidableEq

/-- Lines 201-207: the fixed ordered list of backend model identifiers. -/
def models_to_try : List String :=
  ["gemini-2.5-flash", "gemini-2.0-flash", "gemini-flash-latest",
   "gemini-2.5-pro", "gemini-pro-latest"]

/-- Line 196: the fixed short-content warning message. -/
def shortContentWarning : String :=
  "⚠️ Conteúdo muito curto ou indisponível para resumo."

/-- Lines 211-218: the f-string prompt around `text[:8000]` (the trailing
hash line is literal text inside the triple-quoted f-string). -/
def gemini_prompt (text : String) : String :=
  "\n    Você é um assistente especialista em resumos de notícias.\n" ++
  "    Analise o texto abaixo e gere um resumo curto, neutro e informativo, em um único parágrafo fluido.\n" ++
  "    Mantenha um tom jornalístico e objetivo, similar ao da notícia original.\n" ++
  "    \n    Texto da notícia:\n    " ++
  text.take 8000 ++
  "  # Limita tamanho para evitar tokens excessivos\n    "

/-- Line 232 header of the total-exhaustion result. -/
def geminiFailureHeader : String :=
  "❌ Falha ao gerar resumo. Erros:\n"

/-- Lines 220-233: try each model in order, returning the first successful
response; record `"<model>: <error>"` for each failure; on exhaustion return
the header followed by the newline-joined failures. The second component is
the trace of `generate` calls made. -/
def summarize_loop (backend : String → String → Except String String)
    (prompt : String) :
    List String → List String → String × List GeminiEvent
  | [], errors =>
    (geminiFailureHeader ++ String.intercalate "\n" errors, [])
  | m :: rest, errors =>
    match backend m prompt with
    | Except.ok t => (t, [GeminiEvent.generate m])
    | Except.error e =>
      let r := summarize_loop backend prompt rest (errors ++ [m ++ ": " ++ e])
      (r.1, GeminiEvent.generate m :: r.2)

/-- Lines 189-233, `summarize_with_gemini`: a falsy or short (< 100
characters) text yields the fixed warning before any backend interaction;
otherwise the API key is configured and the models are tried in order.
Returns the produced string together with the trace of `genai`
interactions. -/
def summarize_with_gemini (backend : String → String → Except String String)
    (text : Option String) (api_key : String) :
    String × List GeminiEvent :=
  if !pyTruthyStr text || (text.getD "").length < 100 then
    (shortContentWarning, [])
  else
    let r := summarize_loop backend (gemini_prompt (text.getD ""))
      models_to_try []
    (r.1, GeminiEvent.configure api_key :: r.2)

/-! Concrete fixtures used to instantiate the theorems below. -/

/-- An HTML parser that finds no `<img>` elements. -/
def soupNone : String → Option (List ImgTag) := fun _ => none

/-- An HTML parser finding a single `<img src=http://x/a.jpg>`. -/
def soupX : String → Option (List ImgTag) :=
  fun _ => some [{ src := some "http://x/a.jpg" }]

/-- An HTML parser finding first an `<img>` without `src`, then one with a
non-empty `src`. -/
def soupTwoImgs : String → Option (List ImgTag) :=
  fun _ => some [{ src := none }, { src := some "http://late/b.jpg" }]

/-- An entry with no date information at all. -/
def entNoDate : RawEntry := { title := some "sem data" }

/-- A second undated entry, for a different source. -/
def entNoDate2 : RawEntry := { title := some "sem data 2" }

def feedND : Feed := { title := some "Feed ND", entries := [entNoDate] }

def feedND2 : Feed := { title := some "Feed ND2", entries := [entNoDate2] }

/-- A fetcher serving the two undated feeds. -/
def fetchND : String → Except String Feed := fun u =>
  if u = "n1" then Except.ok feedND else Except.ok feedND2

def pA1 : ParsedTime := ⟨2024, 1, 1, 0, 0, 10⟩

def pA2 : ParsedTime := ⟨2024, 1, 1, 0, 0, 30⟩

def pC1 : ParsedTime := ⟨2024, 1, 1, 0, 0, 20⟩

def entA1 : RawEntry := { title := some "a1", published_parsed := some pA1 }

def entA2 : RawEntry := { title := some "a2", published_parsed := some pA2 }

def entC1 : RawEntry := { title := some "c1", published_parsed := some pC1 }

def feedA : Feed := { title := some "Feed A", entries := [entA1, entA2] }

def feedC : Feed := { title := some "Feed C", entries := [entC1] }

/-- Source A yields two valid entries, source B raises, source C yields
one valid entry. -/
def fetchABC : String → Except String Feed := fun u =>
  if u = "A" then Except.ok feedA
  else if u = "B" then Except.error "boom"
  else Except.ok feedC

/-- A fetcher that always returns feed C (used with a duplicated URL). -/
def fetchDup : String → Except String Feed := fun _ => Except.ok feedC

def entT1 : RawEntry := { title := some "t1", published_parsed := some pA1 }

def entT2 : RawEntry := { title := some "t2", published_parsed := some pA1 }

def feedT : Feed := { title := some "Feed T", entries := [entT1, entT2] }

/-- A fetcher whose feed has two entries with equal published instants. -/
def fetchT : String → Except String Feed := fun _ => Except.ok feedT

def pPub : ParsedTime := ⟨2024, 1, 2, 3, 4, 5⟩

def pUpd : ParsedTime := ⟨2023, 6, 7, 8, 9, 10⟩

/-- An entry carrying both a parsed published and a parsed updated date. -/
def entBothDates : RawEntry :=
  { published_parsed := some pPub, updated_parsed := some pUpd }

/-- An entry carrying only a parsed updated date. -/
def entUpdOnly : RawEntry := { updated_parsed := some pUpd }

/-- A media-content descriptor that is an image and has a URL. -/
def mcGood : MediaContent := { medium := some "image", url := some "http://m/a.jpg" }

/-- A matching media-content descriptor with no `url` key. -/
def mcNoUrl : MediaContent := { medium := some "image" }

/-- A matching media-content descriptor occurring after `mcNoUrl`. -/
def mcLate : MediaContent := { medium := some "image", url := some "http://late/m.jpg" }

def thumbT : MediaThumbnail := { url := some "http://t/c.jpg" }

/-- An entry with both a media-content image descriptor and an embedded
`<img>` in its summary HTML. -/
def entMC : RawEntry :=
  { summary := some "<p>texto<img src=http://x/a.jpg></p>",
    media_content := some [mcGood] }

/-- An entry whose first matching media-content descriptor lacks a URL,
followed by a matching descriptor with a URL, plus a thumbnail. -/
def entC9 : RawEntry :=
  { media_content := some [mcNoUrl, mcLate],
    media_thumbnail := some [thumbT] }

/-- An entry whose summary's first `<img>` has no `src` but whose second
`<img>` does. -/
def entC10 : RawEntry := { summary := some "<img><img src=late>" }

/-- A news item with the given published instant, for filter tests. -/
def mkNewsItem (p : Instant) : NewsItem :=
  { title := "t", link := "", source := "s", published := p,
    raw_date := "", has_time := true, summary_rss := "", image := none }

/-- Published one hour before the reference instant 20000. -/
def itemRecent : NewsItem := mkNewsItem 16400

/-- Published three hours before the reference instant 20000. -/
def itemOld : NewsItem := mkNewsItem 9200

/-- Published ten minutes after the reference instant 20000. -/
def itemFuture : NewsItem := mkNewsItem 20600

/-- A backend on which every model attempt fails with message `x`. -/
def backendFail : String → String → Except String String :=
  fun _ _ => Except.error "x"

/-- A 120-character text, above the summarizer's minimum length. -/
def longText : String := String.mk (List.replicate 120 'a')

/-! Helper lemmas. -/

theorem pyTruthyStr_some {u : String} (h : u ≠ "") :
    pyTruthyStr (some u) = true := by
  simp [pyTruthyStr, h]

theorem newsLe_trans : ∀ a b c : NewsItem, newsLe a b → newsLe b c → newsLe a c := by
  intro a b c h1 h2
  simp only [newsLe, decide_eq_true_eq] at h1 h2 ⊢
  exact h2.trans h1

theorem newsLe_total : ∀ a b : NewsItem, newsLe a b || newsLe b a := by
  intro a b
  simp only [newsLe, Bool.or_eq_true, decide_eq_true_eq]
  exact Int.le_total b.published a.published

theorem insertNews_append (x : NewsItem) :
    ∀ (l₁ l₂ : List NewsItem),
      (∀ y ∈ l₁, x.published < y.published) →
      (∀ y, l₂.head? = some y → y.published ≤ x.published) →
      insertNews x (l₁ ++ l₂) = l₁ ++ x :: l₂ := by
  intro l₁
  induction l₁ with
  | nil =>
    intro l₂ _ h₂
    cases l₂ with
    | nil => rfl
    | cons y ys =>
      have hy : ¬ x.published < y.published := not_lt.2 (h₂ y rfl)
      simp [insertNews, hy]
  | cons z l₁ ih =>
    intro l₂ h₁ h₂
    have hz := h₁ z (List.mem_cons_self z l₁)
    simp only [List.cons_append, insertNews, if_pos hz]
    exact congrArg (List.cons z)
      (ih l₂ (fun y hy => h₁ y (List.mem_cons_of_mem z hy)) h₂)

/-- The source's stable descending sort agrees with `List.mergeSort` under
the `newsLe` comparison, so core's sortedness and stability lemmas apply. -/
theorem sortNewsDesc_eq_mergeSort :
    ∀ l : List NewsItem, sortNewsDesc l = l.mergeSort newsLe
  | [] => by simp [sortNewsDesc]
  | x :: xs => by
    obtain ⟨l₁, l₂, hm, hms, hl₁⟩ :=
      List.mergeSort_cons newsLe_trans newsLe_total x xs
    have hsorted := List.sorted_mergeSort newsLe_trans newsLe_total (x :: xs)
    rw [hm] at hsorted
    rw [sortNewsDesc, sortNewsDesc_eq_mergeSort xs, hms, hm]
    apply insertNews_append
    · intro y hy
      have hb := hl₁ y hy
      simp only [newsLe, Bool.not_eq_true', decide_eq_false_iff_not, not_le] at hb
      exact hb
    · intro y hy
      have hx : List.Pairwise (fun a b => newsLe a b) (x :: l₂) :=
        hsorted.sublist (List.sublist_append_right l₁ (x :: l₂))
      have := List.rel_of_pairwise_cons hx (List.mem_of_mem_head? hy)
      simpa [newsLe] using this

/-- Any item collected by the `fetch_feeds` loop whose time is unreliable
carries the run snapshot as its published instant. -/
theorem fetch_feeds_run_unreliable_published
    (soup : String → Option (List ImgTag)) (fetch : String → Except String Feed)
    (fixed_now : Instant) (now_str : String) :
    ∀ (urls : List String) (item : NewsItem),
      item ∈ (fetch_feeds_run soup fetch fixed_now now_str urls).1 →
      item.has_time = false → item.published = fixed_now := by
  intro urls
  induction urls with
  | nil => intro item h; simp [fetch_feeds_run] at h
  | cons url rest ih =>
    intro item h ht
    simp only [fetch_feeds_run] at h
    split at h
    · exact ih item h ht
    · split at h
      · rcases List.mem_append.1 h with hm | hm
        · rcases List.mem_map.1 hm with ⟨e, _, rfl⟩
          simp only [normalize_entry] at ht ⊢
          rcases hp : publishedParsedOrUpdated e with _ | p
          · simp [hp]
          · simp [hp] at ht
        · exact ih item hm ht
      · exact ih item h ht

/-- C1: for every entry lacking both `published_parsed` and
`updated_parsed`, the produced `NewsItem` has `has_time = false` and
`published` equal to the single snapshot instant of the aggregation call;
two such entries (possibly from different sources) compare equal on
`published`, and any unreliable item in the aggregated output carries the
snapshot instant. -/
theorem c1_snapshot_for_unparsed_dates :
    (∀ soup fixed_now now_str feed_title (e : RawEntry),
        e.published_parsed = none → e.updated_parsed = none →
        (normalize_entry soup fixed_now now_str feed_title e).has_time = false ∧
        (normalize_entry soup fixed_now now_str feed_title e).published = fixed_now) ∧
    (∀ soup fixed_now now_str ft ft' (e e' : RawEntry),
        e.published_parsed = none → e.updated_parsed = none →
        e'.published_parsed = none → e'.updated_parsed = none →
        (normalize_entry soup fixed_now now_str ft e).published =
          (normalize_entry soup fixed_now now_str ft' e').published) ∧
    (∀ soup fetch fixed_now now_str urls (item : NewsItem),
        item ∈ fetch_feeds soup fetch fixed_now now_str urls →
        item.has_time = false → item.published = fixed_now) := by
  refine ⟨?_, ?_, ?_⟩
  · intro soup fixed_now now_str feed_title e h1 h2
    simp [normalize_entry, publishedParsedOrUpdated, h1, h2]
  · intro soup fixed_now now_str ft ft' e e' h1 h2 h3 h4
    simp [normalize_entry, publishedParsedOrUpdated, h1, h2, h3, h4]
  · intro soup fetch fixed_now now_str urls item h ht
    simp only [fetch_feeds, sortNewsDesc_eq_mergeSort, List.mem_mergeSort] at h
    exact fetch_feeds_run_unreliable_published soup fetch fixed_now now_str
      urls item h ht

theorem c1_snapshot_for_unparsed_dates_witness :
    ((normalize_entry soupNone 42 "now" "Feed ND" entNoDate).has_time = false ∧
      (normalize_entry soupNone 42 "now" "Feed ND" entNoDate).published = 42) ∧
    (normalize_entry soupNone 42 "now" "Feed ND" entNoDate).published =
      (normalize_entry soupNone 42 "now" "Feed ND2" entNoDate2).published ∧
    (normalize_entry soupNone 42 "now" "Feed ND" entNoDate).published = 42 :=
  ⟨c1_snapshot_for_unparsed_dates.1 soupNone 42 "now" "Feed ND" entNoDate rfl rfl,
   c1_snapshot_for_unparsed_dates.2.1 soupNone 42 "now" "Feed ND" "Feed ND2"
     entNoDate entNoDate2 rfl rfl rfl rfl,
   c1_snapshot_for_unparsed_dates.2.2 soupNone fetchND 42 "now" ["n1", "n2"]
     (normalize_entry soupNone 42 "now" "Feed ND" entNoDate)
     (by decide) (by decide)⟩

/-- C6: for every entry with a parsed published (resp. updated) date, the
`NewsItem` published instant is exactly `datetime(*parsed[:6])` and
`has_time` is true; a parsed published date takes strict priority over a
parsed updated date. -/
theorem c6_parsed_date_priority :
    (∀ soup fixed_now now_str ft (e : RawEntry) (p : ParsedTime),
        e.published_parsed = some p →
        (normalize_entry soup fixed_now now_str ft e).published =
            datetimeOfParsed p ∧
          (normalize_entry soup fixed_now now_str ft e).has_time = true) ∧
    (∀ soup fixed_now now_str ft (e : RawEntry) (q : ParsedTime),
        e.published_parsed = none → e.updated_parsed = some q →
        (normalize_entry soup fixed_now now_str ft e).published =
            datetimeOfParsed q ∧
          (normalize_entry soup fixed_now now_str ft e).has_time = true) := by
  constructor
  · intro soup fixed_now now_str ft e p h
    simp [normalize_entry, publishedParsedOrUpdated, h]
  · intro soup fixed_now now_str ft e q h1 h2
    simp [normalize_entry, publishedParsedOrUpdated, h1, h2]

theorem c6_parsed_date_priority_witness :
    ((normalize_entry soupNone 0 "now" "F" entBothDates).published =
        datetimeOfParsed pPub ∧
      (normalize_entry soupNone 0 "now" "F" entBothDates).has_time = true) ∧
    (normalize_entry soupNone 0 "now" "F" entUpdOnly).published =
        datetimeOfParsed pUpd ∧
      (normalize_entry soupNone 0 "now" "F" entUpdOnly).has_time = true :=
  ⟨c6_parsed_date_priority.1 soupNone 0 "now" "F" entBothDates pPub rfl,
   c6_parsed_date_priority.2 soupNone 0 "now" "F" entUpdOnly pUpd rfl rfl⟩

/-- C5: the recency filter retains exactly the items whose age relative to
the reference instant lies in `[0, windowSeconds]` (future items excluded),
preserves input order and leaves items unchanged (the output is a sublist of
the input); at the source's window 7200 an item one hour old is retained
while three-hours-old and ten-minutes-future items are dropped. -/
theorem c5_recency_filter_exact :
    (∀ (items : List NewsItem) (T W : Int) (x : NewsItem),
        x ∈ recency_filter T W items ↔
          x ∈ items ∧ 0 ≤ T - x.published ∧ T - x.published ≤ W) ∧
    (∀ (items : List NewsItem) (T W : Int),
        (recency_filter T W items).Sublist items) ∧
    news_items_recent 20000 [itemRecent, itemOld, itemFuture] = [itemRecent] := by
  refine ⟨?_, ?_, by decide⟩
  · intro items T W x
    simp [recency_filter, List.mem_filter]
  · intro items T W
    exact List.filter_sublist items

/-! Image resolution: lemmas about the five strategy steps. -/

theorem imageStep1_eq_strat1 (e : RawEntry) : imageStep1 e = strat1 e := by
  cases h : e.media_content <;> simp [imageStep1, strat1, h]

theorem imageStep2_truthy (e : RawEntry) {prev : Option String}
    (h : pyTruthyStr prev = true) : imageStep2 e prev = prev := by
  simp [imageStep2, h]

theorem imageStep3_truthy (e : RawEntry) {prev : Option String}
    (h : pyTruthyStr prev = true) : imageStep3 e prev = prev := by
  simp [imageStep3, h]

theorem imageStep4_truthy (e : RawEntry) {prev : Option String}
    (h : pyTruthyStr prev = true) : imageStep4 e prev = prev := by
  simp [imageStep4, h]

theorem imageStep5_truthy (soup : String → Option (List ImgTag))
    (e : RawEntry) {prev : Option String}
    (h : pyTruthyStr prev = true) : imageStep5 soup e prev = prev := by
  simp [imageStep5, h]

theorem imageStep2_fires (e : RawEntry) {prev : Option String} {u : String}
    (hp : pyTruthyStr prev = false) (h : strat2 e = some u) :
    imageStep2 e prev = some u := by
  rcases ht : e.media_thumbnail with _ | l
  · simp [strat2, ht] at h
  · cases l with
    | nil => simp [strat2, ht] at h
    | cons t ts =>
      simp [strat2, ht] at h
      simp [imageStep2, hp, ht, h]

theorem imageStep2_untruthy (e : RawEntry) {prev : Option String}
    (hp : pyTruthyStr prev = false) (h : pyTruthyStr (strat2 e) = false) :
    pyTruthyStr (imageStep2 e prev) = false := by
  rcases ht : e.media_thumbnail with _ | l
  · simp [imageStep2, hp, ht]
  · cases l with
    | nil => simp [imageStep2, hp, ht]
    | cons t ts =>
      simp [strat2, ht] at h
      simpa [imageStep2, hp, ht] using h

theorem imageStep2_none (e : RawEntry) (h : strat2 e = none) :
    imageStep2 e none = none := by
  rcases ht : e.media_thumbnail with _ | l
  · simp [imageStep2, pyTruthyStr, ht]
  · cases l with
    | nil => simp [imageStep2, pyTruthyStr, ht]
    | cons t ts =>
      simp [strat2, ht] at h
      simp [imageStep2, pyTruthyStr, ht, h]

theorem imageStep3_fires (e : RawEntry) {prev : Option String} {u : String}
    (hp : pyTruthyStr prev = false) (h : strat3 e = some u) :
    imageStep3 e prev = some u := by
  rcases ht : e.enclosures with _ | es
  · simp [strat3, ht] at h
  · rcases hf : es.find? enclosureIsImage with _ | en
    · simp [strat3, ht, hf] at h
    · simp [strat3, ht, hf] at h
      simp [imageStep3, hp, ht, hf, h]

theorem imageStep3_untruthy (e : RawEntry) {prev : Option String}
    (hp : pyTruthyStr prev = false) (h : pyTruthyStr (strat3 e) = false) :
    pyTruthyStr (imageStep3 e prev) = false := by
  rcases ht : e.enclosures with _ | es
  · simp [imageStep3, hp, ht]
  · rcases hf : es.find? enclosureIsImage with _ | en
    · simp [imageStep3, hp, ht, hf]
    · simp [strat3, ht, hf] at h
      simpa [imageStep3, hp, ht, hf] using h

theorem imageStep3_none (e : RawEntry) (h : strat3 e = none) :
    imageStep3 e none = none := by
  rcases ht : e.enclosures with _ | es
  · simp [imageStep3, pyTruthyStr, ht]
  · rcases hf : es.find? enclosureIsImage with _ | en
    · simp [imageStep3, pyTruthyStr, ht, hf]
    · simp [strat3, ht, hf] at h
      simp [imageStep3, pyTruthyStr, ht, hf, h]

theorem imageStep4_fires (e : RawEntry) {prev : Option String} {u : String}
    (hp : pyTruthyStr prev = false) (h : strat4 e = some u) :
    imageStep4 e prev = some u := by
  rcases ht : e.links with _ | ls
  · simp [strat4, ht] at h
  · rcases hf : ls.find? linkIsImage with _ | l
    · simp [strat4, ht, hf] at h
    · simp [strat4, ht, hf] at h
      simp [imageStep4, hp, ht, hf, h]

theorem imageStep4_untruthy (e : RawEntry) {prev : Option String}
    (hp : pyTruthyStr prev = false) (h : pyTruthyStr (strat4 e) = false) :
    pyTruthyStr (imageStep4 e prev) = false := by
  rcases ht : e.links with _ | ls
  · simp [imageStep4, hp, ht]
  · rcases hf : ls.find? linkIsImage with _ | l
    · simp [imageStep4, hp, ht, hf]
    · simp [strat4, ht, hf] at h
      simpa [imageStep4, hp, ht, hf] using h

theorem imageStep4_none (e : RawEntry) (h : strat4 e = none) :
    imageStep4 e none = none := by
  rcases ht : e.links with _ | ls
  · simp [imageStep4, pyTruthyStr, ht]
  · rcases hf : ls.find? linkIsImage with _ | l
    · simp [imageStep4, pyTruthyStr, ht, hf]
    · simp [strat4, ht, hf] at h
      simp [imageStep4, pyTruthyStr, ht, hf, h]

theorem imageStep5_fires (soup : String → Option (List ImgTag))
    (e : RawEntry) {prev : Option String} {u : String}
    (hp : pyTruthyStr prev = false) (h : strat5 soup e = some u) :
    imageStep5 soup e prev = some u := by
  by_cases hc : contentToParse e = ""
  · simp [strat5, hc] at h
  · rcases hs : soup (contentToParse e) with _ | tags
    · simp [strat5, hc, hs] at h
    · rcases hh : tags.head? with _ | t
      · simp [strat5, hc, hs, hh] at h
      · cases hsrc : pyTruthyStr t.src with
        | false => simp [strat5, hc, hs, hh, hsrc] at h
        | true =>
          simp [strat5, hc, hs, hh, hsrc] at h
          have hu : pyTruthyStr (some u) = true := h ▸ hsrc
          simp [imageStep5, hp, hc, hs, hh, h, hu]

theorem imageStep5_none (soup : String → Option (List ImgTag))
    (e : RawEntry) (h : strat5 soup e = none) :
    imageStep5 soup e none = none := by
  by_cases hc : contentToParse e = ""
  · simp [imageStep5, pyTruthyStr, hc]
  · rcases hs : soup (contentToParse e) with _ | tags
    · simp [imageStep5, pyTruthyStr, hc, hs]
    · rcases hh : tags.head? with _ | t
      · simp [imageStep5, pyTruthyStr, hc, hs, hh]
      · cases hsrc : pyTruthyStr t.src with
        | false =>
          have hn : pyTruthyStr (none : Option String) = false := rfl
          simp [imageStep5, hn, hc, hs, hh, hsrc]
        | true =>
          simp [strat5, hc, hs, hh, hsrc] at h
          simp [pyTruthyStr, h] at hsrc

/-- If strategy 1 yields a truthy URL, resolution returns it. -/
theorem resolve_image_of_strat1 (soup : String → Option (List ImgTag))
    (e : RawEntry) {u : String} (h : strat1 e = some u) (hu : u ≠ "") :
    resolve_image soup e = some u := by
  have h1 : imageStep1 e = some u := (imageStep1_eq_strat1 e).trans h
  have ht := pyTruthyStr_some hu
  unfold resolve_image
  rw [h1, imageStep2_truthy e ht, imageStep3_truthy e ht,
    imageStep4_truthy e ht, imageStep5_truthy soup e ht]

/-- If strategy 1 yields nothing truthy and strategy 2 yields a truthy URL,
resolution returns the latter. -/
theorem resolve_image_of_strat2 (soup : String → Option (List ImgTag))
    (e : RawEntry) {u : String} (h1 : pyTruthyStr (strat1 e) = false)
    (h : strat2 e = some u) (hu : u ≠ "") :
    resolve_image soup e = some u := by
  have e1 : pyTruthyStr (imageStep1 e) = false := by
    rw [imageStep1_eq_strat1]; exact h1
  have s2 := imageStep2_fires e e1 h
  have ht := pyTruthyStr_some hu
  unfold resolve_image
  rw [s2, imageStep3_truthy e ht, imageStep4_truthy e ht,
    imageStep5_truthy soup e ht]

/-- If strategies 1 and 2 yield nothing truthy and strategy 3 yields a
truthy URL, resolution returns the latter. -/
theorem resolve_image_of_strat3 (soup : String → Option (List ImgTag))
    (e : RawEntry) {u : String} (h1 : pyTruthyStr (strat1 e) = false)
    (h2 : pyTruthyStr (strat2 e) = false) (h : strat3 e = some u)
    (hu : u ≠ "") : resolve_image soup e = some u := by
  have e1 : pyTruthyStr (imageStep1 e) = false := by
    rw [imageStep1_eq_strat1]; exact h1
  have e2 := imageStep2_untruthy e e1 h2
  have s3 := imageStep3_fires e e2 h
  have ht := pyTruthyStr_some hu
  unfold resolve_image
  rw [s3, imageStep4_truthy e ht, imageStep5_truthy soup e ht]

/-- If strategies 1-3 yield nothing truthy and strategy 4 yields a truthy
URL, resolution returns the latter. -/
theorem resolve_image_of_strat4 (soup : String → Option (List ImgTag))
    (e : RawEntry) {u : String} (h1 : pyTruthyStr (strat1 e) = false)
    (h2 : pyTruthyStr (strat2 e) = false)
    (h3 : pyTruthyStr (strat3 e) = false) (h : strat4 e = some u)
    (hu : u ≠ "") : resolve_image soup e = some u := by
  have e1 : pyTruthyStr (imageStep1 e) = false := by
    rw [imageStep1_eq_strat1]; exact h1
  have e2 := imageStep2_untruthy e e1 h2
  have e3 := imageStep3_untruthy e e2 h3
  have s4 := imageStep4_fires e e3 h
  have ht := pyTruthyStr_some hu
  unfold resolve_image
  rw [s4, imageStep5_truthy soup e ht]

/-- If strategies 1-4 yield nothing truthy and strategy 5 yields a URL,
resolution returns the latter. -/
theorem resolve_image_of_strat5 (soup : String → Option (List ImgTag))
    (e : RawEntry) {u : String} (h1 : pyTruthyStr (strat1 e) = false)
    (h2 : pyTruthyStr (strat2 e) = false)
    (h3 : pyTruthyStr (strat3 e) = false)
    (h4 : pyTruthyStr (strat4 e) = false) (h : strat5 soup e = some u) :
    resolve_image soup e = some u := by
  have e1 : pyTruthyStr (imageStep1 e) = false := by
    rw [imageStep1_eq_strat1]; exact h1
  have e2 := imageStep2_untruthy e e1 h2
  have e3 := imageStep3_untruthy e e2 h3
  have e4 := imageStep4_untruthy e e3 h4
  have s5 := imageStep5_fires soup e e4 h
  unfold resolve_image
  exact s5

/-- If all five strategies yield nothing, resolution returns absent. -/
theorem resolve_image_of_none (soup : String → Option (List ImgTag))
    (e : RawEntry) (h1 : strat1 e = none) (h2 : strat2 e = none)
    (h3 : strat3 e = none) (h4 : strat4 e = none)
    (h5 : strat5 soup e = none) : resolve_image soup e = none := by
  have n1 : imageStep1 e = none := (imageStep1_eq_strat1 e).trans h1
  unfold resolve_image
  rw [n1, imageStep2_none e h2, imageStep3_none e h3, imageStep4_none e h4,
    imageStep5_none soup e h5]

theorem find?_middle {α : Type} (p : α → Bool) :
    ∀ (l₁ : List α) (a : α) (l₂ : List α),
      (∀ x ∈ l₁, p x = false) → p a = true →
      (l₁ ++ a :: l₂).find? p = some a := by
  intro l₁
  induction l₁ with
  | nil =>
    intro a l₂ _ ha
    simp [List.find?, ha]
  | cons x l₁ ih =>
    intro a l₂ h ha
    have hx := h x (List.mem_cons_self x l₁)
    simp only [List.cons_append, List.find?, hx]
    exact ih a l₂ (fun y hy => h y (List.mem_cons_of_mem x hy)) ha

/-- C3: image resolution follows the fixed five-strategy order with the
first truthy URL winning and absence otherwise; in particular, an entry
with both a media-content image descriptor and an embedded `<img>` in its
summary HTML resolves to the media-content URL. -/
theorem c3_image_strategy_order :
    (∀ (soup : String → Option (List ImgTag)) (e : RawEntry) (u : String),
        strat1 e = some u → u ≠ "" → resolve_image soup e = some u) ∧
    (∀ (soup : String → Option (List ImgTag)) (e : RawEntry) (u : String),
        pyTruthyStr (strat1 e) = false → strat2 e = some u → u ≠ "" →
        resolve_image soup e = some u) ∧
    (∀ (soup : String → Option (List ImgTag)) (e : RawEntry) (u : String),
        pyTruthyStr (strat1 e) = false → pyTruthyStr (strat2 e) = false →
        strat3 e = some u → u ≠ "" → resolve_image soup e = some u) ∧
    (∀ (soup : String → Option (List ImgTag)) (e : RawEntry) (u : String),
        pyTruthyStr (strat1 e) = false → pyTruthyStr (strat2 e) = false →
        pyTruthyStr (strat3 e) = false → strat4 e = some u → u ≠ "" →
        resolve_image soup e = some u) ∧
    (∀ (soup : String → Option (List ImgTag)) (e : RawEntry) (u : String),
        pyTruthyStr (strat1 e) = false → pyTruthyStr (strat2 e) = false →
        pyTruthyStr (strat3 e) = false → pyTruthyStr (strat4 e) = false →
        strat5 soup e = some u → resolve_image soup e = some u) ∧
    (∀ (soup : String → Option (List ImgTag)) (e : RawEntry),
        strat1 e = none → strat2 e = none → strat3 e = none →
        strat4 e = none → strat5 soup e = none →
        resolve_image soup e = none) ∧
    (∀ (soup : String → Option (List ImgTag)) (e : RawEntry) (u : String)
        (tag : ImgTag) (rest : List ImgTag),
        strat1 e = some u → u ≠ "" →
        soup (contentToParse e) = some (tag :: rest) →
        pyTruthyStr tag.src = true →
        resolve_image soup e = some u) :=
  ⟨fun soup e _u h hu => resolve_image_of_strat1 soup e h hu,
   fun soup e _u h1 h hu => resolve_image_of_strat2 soup e h1 h hu,
   fun soup e _u h1 h2 h hu => resolve_image_of_strat3 soup e h1 h2 h hu,
   fun soup e _u h1 h2 h3 h hu =>
     resolve_image_of_strat4 soup e h1 h2 h3 h hu,
   fun soup e _u h1 h2 h3 h4 h =>
     resolve_image_of_strat5 soup e h1 h2 h3 h4 h,
   fun soup e h1 h2 h3 h4 h5 =>
     resolve_image_of_none soup e h1 h2 h3 h4 h5,
   fun soup e _u _ _ h hu _ _ => resolve_image_of_strat1 soup e h hu⟩

theorem c3_image_strategy_order_witness :
    resolve_image soupX entMC = some "http://m/a.jpg" :=
  c3_image_strategy_order.2.2.2.2.2.2 soupX entMC "http://m/a.jpg"
    { src := some "http://x/a.jpg" } [] (by decide) (by decide) rfl
    (by decide)

/-- C9: when the first media-content descriptor accepted by the image
predicate has no `url`, the media-content scan stops there yielding
nothing (later matching descriptors are not accepted), yet resolution does
not give up: the remaining strategies are still attempted, and e.g. a
present thumbnail URL is returned. -/
theorem c9_media_scan_stops_without_url :
    (∀ (e : RawEntry) (ms : List MediaContent) (m : MediaContent),
        e.media_content = some ms → ms.find? matchesImageMedia = some m →
        m.url = none → imageStep1 e = none) ∧
    (∀ (soup : String → Option (List ImgTag)) (e : RawEntry)
        (ms : List MediaContent) (m : MediaContent),
        e.media_content = some ms → ms.find? matchesImageMedia = some m →
        m.url = none →
        resolve_image soup e =
          imageStep5 soup e
            (imageStep4 e (imageStep3 e (imageStep2 e none)))) ∧
    (∀ (soup : String → Option (List ImgTag)) (e : RawEntry)
        (ms₁ ms₂ : List MediaContent) (m : MediaContent)
        (t : MediaThumbnail) (ts : List MediaThumbnail) (u : String),
        e.media_content = some (ms₁ ++ m :: ms₂) →
        (∀ x ∈ ms₁, matchesImageMedia x = false) →
        matchesImageMedia m = true → m.url = none →
        e.media_thumbnail = some (t :: ts) → t.url = some u → u ≠ "" →
        resolve_image soup e = some u) := by
  refine ⟨?_, ?_, ?_⟩
  · intro e ms m hmc hfind hurl
    simp [imageStep1, hmc, hfind, hurl]
  · intro soup e ms m hmc hfind hurl
    have n1 : imageStep1 e = none := by simp [imageStep1, hmc, hfind, hurl]
    unfold resolve_image
    rw [n1]
  · intro soup e ms₁ ms₂ m t ts u hmc hnone hm hurl hthumb hturl hu
    have hfind : (ms₁ ++ m :: ms₂).find? matchesImageMedia = some m :=
      find?_middle matchesImageMedia ms₁ m ms₂ hnone hm
    have hs1 : strat1 e = none := by simp [strat1, hmc, hfind, hurl]
    have hs2 : strat2 e = some u := by simp [strat2, hthumb, hturl]
    exact resolve_image_of_strat2 soup e (by rw [hs1]; rfl) hs2 hu

theorem c9_media_scan_stops_without_url_witness :
    resolve_image soupNone entC9 = some "http://t/c.jpg" :=
  c9_media_scan_stops_without_url.2.2 soupNone entC9 [] [mcLate] mcNoUrl
    thumbT [] "http://t/c.jpg" rfl (by simp) (by decide) rfl rfl rfl
    (by decide)

/-- C10: in strategy 5 only the first `<img>` counts: if its `src` is
missing or empty the HTML scan yields no image even when a later `<img>`
has a non-empty `src`; and when the concatenated summary/content text is
empty the scan is skipped entirely (the parser is never consulted). -/
theorem c10_embedded_html_first_img_only :
    (∀ (soup : String → Option (List ImgTag)) (e : RawEntry) (tag : ImgTag)
        (rest : List ImgTag),
        imageStep4 e (imageStep3 e (imageStep2 e (imageStep1 e))) = none →
        soup (contentToParse e) = some (tag :: rest) →
        (tag.src = none ∨ tag.src = some "") →
        resolve_image soup e = none) ∧
    (∀ (soup : String → Option (List ImgTag)) (e : RawEntry),
        contentToParse e = "" →
        resolve_image soup e =
          imageStep4 e (imageStep3 e (imageStep2 e (imageStep1 e)))) := by
  constructor
  · intro soup e tag rest h4 hs hsrc
    have hts : pyTruthyStr tag.src = false := by
      rcases hsrc with h | h <;> simp [pyTruthyStr, h]
    have hn : pyTruthyStr (none : Option String) = false := rfl
    unfold resolve_image
    rw [h4]
    by_cases hc : contentToParse e = ""
    · simp [imageStep5, hn, hc]
    · simp [imageStep5, hn, hc, hs, hts]
  · intro soup e hc
    unfold resolve_image
    simp [imageStep5, hc]

theorem c10_embedded_html_first_img_only_witness :
    resolve_image soupTwoImgs entC10 = none :=
  c10_embedded_html_first_img_only.1 soupTwoImgs entC10 { src := none }
    [{ src := some "http://late/b.jpg" }] (by decide) rfl (Or.inl rfl)

/-! Aggregation: per-source failure isolation, sorting, duplicates. -/

theorem fetch_feeds_run_error_skip (soup : String → Option (List ImgTag))
    (fetch : String → Except String Feed) (fixed_now : Instant)
    (now_str : String) {b err : String} (hb : fetch b = Except.error err) :
    ∀ (urls1 urls2 : List String),
      (fetch_feeds_run soup fetch fixed_now now_str (urls1 ++ b :: urls2)).1 =
        (fetch_feeds_run soup fetch fixed_now now_str (urls1 ++ urls2)).1 := by
  intro urls1
  induction urls1 with
  | nil =>
    intro urls2
    by_cases hblank : isBlank b
    · simp [fetch_feeds_run, hblank]
    · simp [fetch_feeds_run, hblank, hb]
  | cons u us ih =>
    intro urls2
    by_cases hblank : isBlank u
    · simp only [List.cons_append, fetch_feeds_run]
      simp [hblank, ih urls2]
    · cases hf : fetch u with
      | ok feed =>
        simp only [List.cons_append, fetch_feeds_run]
        simp [hblank, hf, ih urls2]
      | error e2 =>
        simp only [List.cons_append, fetch_feeds_run]
        simp [hblank, hf, ih urls2]

theorem fetch_feeds_run_error_reported (soup : String → Option (List ImgTag))
    (fetch : String → Except String Feed) (fixed_now : Instant)
    (now_str : String) {b err : String} (hb : fetch b = Except.error err)
    (hnb : isBlank b = false) :
    ∀ (urls1 urls2 : List String),
      ("Erro ao processar feed " ++ b ++ ": " ++ err) ∈
        (fetch_feeds_run soup fetch fixed_now now_str (urls1 ++ b :: urls2)).2 := by
  intro urls1
  induction urls1 with
  | nil =>
    intro urls2
    simp [fetch_feeds_run, hnb, hb]
  | cons u us ih =>
    intro urls2
    by_cases hblank : isBlank u
    · simp only [List.cons_append, fetch_feeds_run]
      simpa [hblank] using ih urls2
    · cases hf : fetch u with
      | ok feed =>
        simp only [List.cons_append, fetch_feeds_run]
        simpa [hblank, hf] using ih urls2
      | error e2 =>
        simp only [List.cons_append, fetch_feeds_run]
        simp [hblank, hf]
        exact Or.inr (ih urls2)

/-- C2: a fetch/parse failure of one source is caught: dropping the failing
source leaves the aggregated output unchanged (so the failure removes or
reorders nothing from other sources and no error propagates); the error is
reported; concretely, sources A (2 entries), B (raises), C (1 entry) yield
exactly the 3 items of A and C, sorted descending by published. -/
theorem c2_per_source_failure_isolation :
    (∀ (soup : String → Option (List ImgTag))
        (fetch : String → Except String Feed) (fixed_now : Instant)
        (now_str : String) (urls1 urls2 : List String) (b err : String),
        fetch b = Except.error err →
        fetch_feeds soup fetch fixed_now now_str (urls1 ++ b :: urls2) =
          fetch_feeds soup fetch fixed_now now_str (urls1 ++ urls2)) ∧
    (∀ (soup : String → Option (List ImgTag))
        (fetch : String → Except String Feed) (fixed_now : Instant)
        (now_str : String) (urls1 urls2 : List String) (b err : String),
        fetch b = Except.error err → isBlank b = false →
        ("Erro ao processar feed " ++ b ++ ": " ++ err) ∈
          fetch_feeds_errors soup fetch fixed_now now_str
            (urls1 ++ b :: urls2)) ∧
    fetch_feeds soupNone fetchABC 0 "now" ["A", "B", "C"] =
      [normalize_entry soupNone 0 "now" "Feed A" entA2,
       normalize_entry soupNone 0 "now" "Feed C" entC1,
       normalize_entry soupNone 0 "now" "Feed A" entA1] := by
  refine ⟨?_, ?_, by decide⟩
  · intro soup fetch fixed_now now_str urls1 urls2 b err hb
    unfold fetch_feeds
    rw [fetch_feeds_run_error_skip soup fetch fixed_now now_str hb urls1 urls2]
  · intro soup fetch fixed_now now_str urls1 urls2 b err hb hnb
    exact fetch_feeds_run_error_reported soup fetch fixed_now now_str hb hnb
      urls1 urls2

theorem c2_per_source_failure_isolation_witness :
    fetch_feeds soupNone fetchABC 0 "now" (["A"] ++ "B" :: ["C"]) =
        fetch_feeds soupNone fetchABC 0 "now" (["A"] ++ ["C"]) ∧
    ("Erro ao processar feed " ++ "B" ++ ": " ++ "boom") ∈
      fetch_feeds_errors soupNone fetchABC 0 "now" (["A"] ++ "B" :: ["C"]) :=
  ⟨c2_per_source_failure_isolation.1 soupNone fetchABC 0 "now" ["A"] ["C"]
      "B" "boom" rfl,
   c2_per_source_failure_isolation.2.1 soupNone fetchABC 0 "now" ["A"] ["C"]
      "B" "boom" rfl (by decide)⟩

/-- The aggregated output is pairwise descending on `published`. -/
theorem fetch_feeds_sorted_desc (soup : String → Option (List ImgTag))
    (fetch : String → Except String Feed) (fixed_now : Instant)
    (now_str : String) (urls : List String) :
    (fetch_feeds soup fetch fixed_now now_str urls).Pairwise
      (fun a b => b.published ≤ a.published) := by
  have h := List.sorted_mergeSort newsLe_trans newsLe_total
    (fetch_feeds_run soup fetch fixed_now now_str urls).1
  rw [fetch_feeds, sortNewsDesc_eq_mergeSort]
  exact h.imp (fun hab => by simpa [newsLe] using hab)

/-- C7: the aggregated collection is sorted by `published` descending and
the sort is stable: any selection of collected items with pairwise-equal
published instants survives as a sublist (its relative source-encounter
order is preserved) in the sorted output. -/
theorem c7_sorted_descending_stable :
    (∀ (soup : String → Option (List ImgTag))
        (fetch : String → Except String Feed) (fixed_now : Instant)
        (now_str : String) (urls : List String),
        (fetch_feeds soup fetch fixed_now now_str urls).Pairwise
          (fun a b => b.published ≤ a.published)) ∧
    (∀ (soup : String → Option (List ImgTag))
        (fetch : String → Except String Feed) (fixed_now : Instant)
        (now_str : String) (urls : List String) (c : List NewsItem),
        c.Sublist (fetch_feeds_run soup fetch fixed_now now_str urls).1 →
        (∀ x ∈ c, ∀ y ∈ c, x.published = y.published) →
        c.Sublist (fetch_feeds soup fetch fixed_now now_str urls)) := by
  constructor
  · exact fun soup fetch fixed_now now_str urls =>
      fetch_feeds_sorted_desc soup fetch fixed_now now_str urls
  · intro soup fetch fixed_now now_str urls c hsub heq
    have hpw : c.Pairwise (fun a b => newsLe a b) :=
      List.pairwise_of_forall_mem_list (fun a ha b hb => by
        simp [newsLe, heq a ha b hb])
    rw [fetch_feeds, sortNewsDesc_eq_mergeSort]
    exact List.sublist_mergeSort newsLe_trans newsLe_total hpw hsub

theorem c7_sorted_descending_stable_witness :
    [normalize_entry soupNone 0 "now" "Feed T" entT1,
     normalize_entry soupNone 0 "now" "Feed T" entT2].Sublist
      (fetch_feeds soupNone fetchT 0 "now" ["t"]) :=
  c7_sorted_descending_stable.2 soupNone fetchT 0 "now" ["t"]
    [normalize_entry soupNone 0 "now" "Feed T" entT1,
     normalize_entry soupNone 0 "now" "Feed T" entT2]
    (by decide) (by decide)

/-- C4 counterexample: with the same URL listed twice, the same syndicated
item appears twice in the aggregated output: it is not deduplicated. -/
theorem c4_duplicates_not_removed :
    ¬ (fetch_feeds soupNone fetchDup 0 "now" ["u", "u"]).Nodup := by
  decide

/-- C4 (amended): the aggregated list is time-ordered (descending by
`published`) but not deduplicated: it is exactly a permutation of every
normalized entry collected from the successful sources, each occurrence
retained. -/
theorem c4_amended_no_dedup :
    ∀ (soup : String → Option (List ImgTag))
      (fetch : String → Except String Feed) (fixed_now : Instant)
      (now_str : String) (urls : List String),
      (fetch_feeds soup fetch fixed_now now_str urls).Perm
          (fetch_feeds_run soup fetch fixed_now now_str urls).1 ∧
        (fetch_feeds soup fetch fixed_now now_str urls).Pairwise
          (fun a b => b.published ≤ a.published) := by
  intro soup fetch fixed_now now_str urls
  refine ⟨?_, fetch_feeds_sorted_desc soup fetch fixed_now now_str urls⟩
  rw [fetch_feeds, sortNewsDesc_eq_mergeSort]
  exact List.mergeSort_perm _ _

/-! Summarization. -/

theorem summarize_loop_all_error
    (backend : String → String → Except String String) (prompt : String)
    (errOf : String → String) :
    ∀ (ms : List String) (errors : List String),
      (∀ m ∈ ms, backend m prompt = Except.error (errOf m)) →
      (summarize_loop backend prompt ms errors).1 =
        geminiFailureHeader ++
          String.intercalate "\n"
            (errors ++ ms.map (fun m => m ++ ": " ++ errOf m)) := by
  intro ms
  induction ms with
  | nil => intro errors _; simp [summarize_loop]
  | cons m ms ih =>
    intro errors h
    have hm := h m (List.mem_cons_self m ms)
    simp only [summarize_loop, hm]
    rw [ih (errors ++ [m ++ ": " ++ errOf m])
      (fun x hx => h x (List.mem_cons_of_mem m hx))]
    simp

/-- C8: a missing or shorter-than-100-characters text makes the summarizer
return the fixed short-content warning with an empty backend-interaction
trace (no configure, no model call); when every model attempt fails, the
result is the failure header followed by the newline-joined list of every
attempted failure, in order. -/
theorem c8_short_circuit_and_exhaustion :
    (∀ (backend : String → String → Except String String) (key : String)
        (t : Option String),
        (t = none ∨ (t.getD "").length < 100) →
        summarize_with_gemini backend t key = (shortContentWarning, [])) ∧
    (∀ (backend : String → String → Except String String) (key : String)
        (s : String) (errOf : String → String),
        100 ≤ s.length →
        (∀ m ∈ models_to_try,
          backend m (gemini_prompt s) = Except.error (errOf m)) →
        (summarize_with_gemini backend (some s) key).1 =
          geminiFailureHeader ++
            String.intercalate "\n"
              (models_to_try.map (fun m => m ++ ": " ++ errOf m))) := by
  constructor
  · intro backend key t h
    rcases t with _ | s
    · simp [summarize_with_gemini, pyTruthyStr]
    · rcases h with h | h
      · exact absurd h (by simp)
      · simp only [Option.getD_some] at h
        simp [summarize_with_gemini, h]
  · intro backend key s errOf hlen h
    have hs : s ≠ "" := by
      intro he
      rw [he] at hlen
      simp at hlen
    have hnl : ¬ s.length < 100 := Nat.not_lt.2 hlen
    simp only [summarize_with_gemini, pyTruthyStr_some hs, Option.getD_some,
      Bool.not_true, Bool.false_or, decide_eq_true_eq, if_neg hnl]
    rw [summarize_loop_all_error backend (gemini_prompt s) errOf
      models_to_try [] h]
    simp

theorem c8_short_circuit_and_exhaustion_witness :
    summarize_with_gemini backendFail (some "curto") "k" =
        (shortContentWarning, []) ∧
    (summarize_with_gemini backendFail (some longText) "k").1 =
      geminiFailureHeader ++
        String.intercalate "\n"
          (models_to_try.map (fun m => m ++ ": " ++ (fun _ => "x") m)) :=
  ⟨c8_short_circuit_and_exhaustion.1 backendFail "k" (some "curto")
      (Or.inr (by decide)),
   c8_short_circuit_and_exhaustion.2 backendFail "k" longText (fun _ => "x")
      (by decide) (fun m _ => rfl)⟩
